import Mathlib

set_option maxHeartbeats 1000000

/-!
Shallow embedding of `src/extract_stores.py`, the Ampol store scraper.

Python decoded-JSON values are modelled by the inductive `Json`; the Python
value `None` and the JSON value `null` coincide (as they do after
`json.loads`), both written `Json.null`.  JSON numbers are modelled on the
integers: the claims under verification only ever need to distinguish a
value that converts with `float(...)` from one that raises, never the
numeric value itself.
-/

inductive Json where
  | null : Json
  | bool (b : Bool) : Json
  | num (n : Int) : Json
  | str (s : String) : Json
  | arr (items : List Json) : Json
  | obj (fields : List (String × Json)) : Json

/-- Python `v == s` for a string literal `s` (false on any non-string value,
which is how Python `==` behaves across types). -/
def Json.eqStr (j : Json) (s : String) : Bool :=
  match j with
  | .str t => t = s
  | _ => false

/-- Last-occurrence lookup in an association list, matching the semantics of
a Python dict produced by `json.loads` (later duplicate keys overwrite). -/
def pyDictFind (l : List (String × Json)) (k : String) : Option Json :=
  l.foldl (fun acc p => if p.1 = k then some p.2 else acc) none

/-- Python `k in d` (key presence; a key stored with value `None` counts). -/
def Json.hasKey : Json → String → Bool
  | .obj l, k => (pyDictFind l k).isSome
  | _, _ => false

/-- Python `d.get(k, default)`: the stored value when the key is present
(even when that value is `None`), the default otherwise. -/
def Json.pyGetD (j : Json) (k : String) (d : Json) : Json :=
  match j with
  | .obj l => (pyDictFind l k).getD d
  | _ => d

/-- Python `d.get(k)` (default `None`). -/
def Json.pyGet (j : Json) (k : String) : Json :=
  j.pyGetD k .null

/-- Python `isinstance(v, dict)`. -/
def Json.isObj : Json → Bool
  | .obj _ => true
  | _ => false

/-- Python `isinstance(v, list)`. -/
def Json.isArr : Json → Bool
  | .arr _ => true
  | _ => false

/-- Python truthiness of a decoded JSON value. -/
def Json.truthy : Json → Bool
  | .null => false
  | .bool b => b
  | .num n => n != 0
  | .str s => s != ""
  | .arr l => !l.isEmpty
  | .obj l => !l.isEmpty

/-- Python iteration `for item in v`: lists yield their items, dicts their
keys, strings their characters; every other value raises `TypeError`. -/
def pyIter : Json → Except Unit (List Json)
  | .arr l => .ok l
  | .obj l => .ok (l.map fun p => .str p.1)
  | .str s => .ok (s.toList.map fun c => .str (String.mk [c]))
  | _ => .error ()

/-- Characters after the final slash, so `s.split(sep)[negone]` for the
one-character separator: the last slash-free segment (empty when the string
ends in a slash; the whole string when no slash occurs). -/
def lastSegmentChars : List Char → List Char → List Char
  | [], acc => acc.reverse
  | c :: t, acc => if c = '/' then lastSegmentChars t [] else lastSegmentChars t (c :: acc)

/-- Python `s.split(slash)[negone]` on a string. -/
def lastSegment (s : String) : String :=
  String.mk (lastSegmentChars s.toList [])

/-- Substring containment on character lists. -/
def listContains (pat : List Char) : List Char → Bool
  | [] => pat.isEmpty
  | c :: t => pat.isPrefixOf (c :: t) || listContains pat t

/-- Python `pat in s` for strings. -/
def pyInStr (pat s : String) : Bool :=
  listContains pat.toList s.toList

/-- Digits of a decimal numeral; `none` when empty or any non-digit occurs. -/
def digitsToNat : List Char → Option Nat
  | [] => none
  | cs => cs.foldl (fun acc c =>
      match acc with
      | none => none
      | some n => if c.isDigit then some (n * 10 + (c.toNat - 48)) else none)
      (some 0)

/-- Python `float(s)` on a string, modelled on integer-valued numerals: an
optional sign followed by digits converts, anything else raises
`ValueError`.  (Real Python also accepts decimal points, exponents and
surrounding whitespace; the claims only distinguish converting from
raising, never the numeric value, and all concrete inputs used below are
integral numerals or clearly non-numeric text.) -/
def strToInt : List Char → Option Int
  | '-' :: cs => (digitsToNat cs).map fun n => -(n : Int)
  | '+' :: cs => (digitsToNat cs).map fun n => (n : Int)
  | cs => (digitsToNat cs).map fun n => (n : Int)

/-- Python `float(v)` on a decoded JSON value: numbers and booleans
convert, numeric strings convert, everything else raises. -/
def pyFloat : Json → Option Int
  | .num n => some n
  | .bool b => some (if b then 1 else 0)
  | .str s => strToInt s.toList
  | _ => none

/-- One entry of the `openingHours` output list: the dict literal built at
the line appending to `opening_hours` has exactly the keys `dayOfWeek`
(always a Python string), `opens` and `closes` (arbitrary values from
`spec.get`, possibly `None`). -/
structure HoursEntry where
  dayOfWeek : String
  opens : Json
  closes : Json

/-- The store-record dict literal returned by `get_store_details`.  Every
key of the literal is a field here, so key presence is unconditional, as in
the source; values may be `Json.null` (Python `None`). -/
structure StoreRecord where
  ref : Json
  name : Json
  url : Json
  phone : Json
  address : Json
  locality : Json
  postcode : Json
  country : Json
  latitude : Json
  longitude : Json
  openingHours : List HoursEntry
  services : List String

/-- The `openingHours` entry dict as a Python dict (association list),
in the key order of the source literal. -/
def HoursEntry.toDict (e : HoursEntry) : List (String × Json) :=
  [("dayOfWeek", .str e.dayOfWeek), ("opens", e.opens), ("closes", e.closes)]

/-- The store record as the Python dict literal of the source, in the key
order of the source literal. -/
def StoreRecord.toDict (r : StoreRecord) : List (String × Json) :=
  [("ref", r.ref), ("name", r.name), ("url", r.url),
   ("phone", r.phone), ("address", r.address), ("locality", r.locality),
   ("postcode", r.postcode), ("country", r.country),
   ("latitude", r.latitude), ("longitude", r.longitude),
   ("openingHours", .arr (r.openingHours.map fun e => .obj e.toDict)),
   ("services", .arr (r.services.map Json.str))]

/-- Strict lexicographic order on character lists by code point, the order
Python uses to compare strings. -/
def charListLt : List Char → List Char → Bool
  | [], [] => false
  | [], _ :: _ => true
  | _ :: _, [] => false
  | a :: as, b :: bs =>
      if a.toNat < b.toNat then true
      else if b.toNat < a.toNat then false
      else charListLt as bs

/-- Python `a < b` on strings. -/
def strLt (a b : String) : Bool :=
  charListLt a.toList b.toList

/-- Stable insertion with respect to a boolean comparison: `x` goes in
front of the first element `y` with `le x y`. -/
def insertLe (le : α → α → Bool) (x : α) : List α → List α
  | [] => [x]
  | y :: ys => if le x y then x :: y :: ys else y :: insertLe le x ys

/-- Stable insertion sort (equal elements keep their input order, as
the Python `sorted` builtin guarantees). -/
def isortBy (le : α → α → Bool) : List α → List α
  | [] => []
  | x :: xs => insertLe le x (isortBy le xs)

/-- Python `sorted(list(set(l)))` for a list of decoded JSON values, in the
string case: when every element is a string the result is the
duplicate-free lexicographically sorted list of the elements; any
non-string element is modelled as a raise.  (Real Python would also accept
other uniform hashable element types; no claim exercises one.) -/
def asStrings : List Json → Option (List String)
  | [] => some []
  | .str s :: rest => (asStrings rest).map fun ss => s :: ss
  | _ => none

/-- Python `sorted(list(set(services)))` as used in the record literal. -/
def pySortedSet (l : List Json) : Except Unit (List String) :=
  match asStrings l with
  | some ss => .ok (isortBy (fun a b => !strLt b a) ss.dedup)
  | none => .error ()

/-- The body of the scan loop of `get_store_details`: a non-dict item is
skipped; an item whose type discriminator equals `LocalBusiness`
overwrites `store_info`; an item whose type equals `Service` and that has
a `serviceType` key appends the stored value of that key to `services`. -/
def scanStep (acc : Option Json × List Json) (item : Json) : Option Json × List Json :=
  if item.isObj then
    if (item.pyGet "@type").eqStr "LocalBusiness" then (some item, acc.2)
    else if (item.pyGet "@type").eqStr "Service" && item.hasKey "serviceType" then
      (acc.1, acc.2 ++ [item.pyGet "serviceType"])
    else acc
  else acc

/-- The single scan of `data_list` in `get_store_details`. -/
def scanItems (items : List Json) : Option Json × List Json :=
  items.foldl scanStep (none, [])

/-- Normalization of the decoded JSON-LD value into `data_list` and the
subsequent `for item in data_list` iteration: a dict containing an
`at-graph` key contributes whatever iterating its stored value yields
(raising on a non-iterable); a list is used as is; any other single value
becomes a one-element list. -/
def normalizeItems (raw : Json) : Except Unit (List Json) :=
  if raw.isObj && raw.hasKey "@graph" then pyIter (raw.pyGet "@graph")
  else match raw with
    | .arr l => .ok l
    | _ => .ok [raw]

/-- Line by line image of `address_info = store_info.get(..., {})`. -/
def addressInfo (si : Json) : Json :=
  si.pyGetD "address" (.obj [])

/-- `street = address_info.get(...) if isinstance(address_info, dict) else None`. -/
def street (si : Json) : Json :=
  if (addressInfo si).isObj then (addressInfo si).pyGet "streetAddress" else .null

/-- Locality field extraction, same guard as `street`. -/
def locality (si : Json) : Json :=
  if (addressInfo si).isObj then (addressInfo si).pyGet "addressLocality" else .null

/-- Postcode field extraction, same guard as `street`. -/
def postcode (si : Json) : Json :=
  if (addressInfo si).isObj then (addressInfo si).pyGet "postalCode" else .null

/-- `country_obj = address_info.get(...) if isinstance(address_info, dict) else {}`. -/
def countryObj (si : Json) : Json :=
  if (addressInfo si).isObj then (addressInfo si).pyGet "addressCountry" else .obj []

/-- `country = country_obj.get(...) if isinstance(country_obj, dict) else None`. -/
def country (si : Json) : Json :=
  if (countryObj si).isObj then (countryObj si).pyGet "name" else .null

/-- `geo_info = store_info.get(..., {})`. -/
def geoInfo (si : Json) : Json :=
  si.pyGetD "geo" (.obj [])

/-- The latitude and longitude lines: when `geo_info` is a dict and the
coordinate value is truthy, `float(...)` either converts it or raises (the
raise escapes to the catch-all handler of the fetch loop); otherwise the
field is `None`. -/
def extractCoord (si : Json) (key : String) : Except Unit Json :=
  if (geoInfo si).isObj && ((geoInfo si).pyGet key).truthy then
    match pyFloat ((geoInfo si).pyGet key) with
    | some n => .ok (.num n)
    | none => .error ()
  else .ok .null

/-- `spec.get(dayOfWeek key, empty).split(slash)[negone]`: the default fires
only when the key is absent; a present non-string value (including `None`)
raises `AttributeError` on `.split`. -/
def extractDay (spec : Json) : Except Unit String :=
  match spec.pyGetD "dayOfWeek" (.str "") with
  | .str s => .ok (lastSegment s)
  | _ => .error ()

/-- The opening-hours loop of `get_store_details`: a non-list specification
is wrapped in a singleton list; non-dict entries are skipped; each dict
entry contributes one `HoursEntry`. -/
def extractHours (si : Json) : Except Unit (List HoursEntry) :=
  let specs :=
    match si.pyGetD "openingHoursSpecification" (.arr []) with
    | .arr l => l
    | x => [x]
  specs.foldlM
    (fun acc spec =>
      if spec.isObj then do
        let day ← extractDay spec
        pure (acc ++ [⟨day, spec.pyGet "opens", spec.pyGet "closes"⟩])
      else pure acc)
    []

/-- The record assembly of `get_store_details` from the selected business
item and the collected raw `serviceType` values: the dict literal of the
source.  A raise anywhere here escapes to the handlers of the fetch loop,
which turn the whole page into a failure. -/
def buildRecord (si : Json) (svcVals : List Json) : Except Unit StoreRecord :=
  match extractCoord si "latitude" with
  | .error e => .error e
  | .ok lat =>
    match extractCoord si "longitude" with
    | .error e => .error e
    | .ok lon =>
      match extractHours si with
      | .error e => .error e
      | .ok hours =>
        match pySortedSet svcVals with
        | .error e => .error e
        | .ok svcs =>
          .ok { ref := si.pyGet "@id", name := si.pyGet "name", url := si.pyGet "url",
                phone := si.pyGet "telephone", address := street si,
                locality := locality si, postcode := postcode si,
                country := country si, latitude := lat, longitude := lon,
                openingHours := hours, services := svcs }

/-- The whole parsing logic of `get_store_details` on an already normalized
item list: scan, return `None` when no business item was found, else build
the record. -/
def buildFromItems (items : List Json) : Except Unit (Option StoreRecord) :=
  match scanItems items with
  | (none, _) => .ok none
  | (some si, svcs) => (buildRecord si svcs).map some

/-- Parsing logic of `get_store_details` on the decoded JSON-LD value. -/
def buildFromJson (raw : Json) : Except Unit (Option StoreRecord) :=
  match normalizeItems raw with
  | .error e => .error e
  | .ok items => buildFromItems items

/-- The `day_order` dict of `sort_opening_hours`, with its `.get(day, 7)`
default for unrecognized day names. -/
def day_order (d : String) : Nat :=
  if d = "Monday" then 0
  else if d = "Tuesday" then 1
  else if d = "Wednesday" then 2
  else if d = "Thursday" then 3
  else if d = "Friday" then 4
  else if d = "Saturday" then 5
  else if d = "Sunday" then 6
  else 7

/-- Comparison used by the stable sort of `sort_opening_hours`: entry `x`
precedes entry `y` when its day key is not greater. -/
def hoursLe (x y : HoursEntry) : Bool :=
  day_order x.dayOfWeek ≤ day_order y.dayOfWeek

/-- `sort_opening_hours`: the truthiness guard of the source skips the sort
exactly when the list is empty (the record dict itself is never falsy, and
the key is always present). -/
def sort_opening_hours (r : StoreRecord) : StoreRecord :=
  if r.openingHours.isEmpty then r
  else { r with openingHours := isortBy hoursLe r.openingHours }

/-- Python `<` between two decoded values, as invoked on sort keys:
numbers (and booleans, which are numbers in Python) compare numerically,
strings compare lexicographically, and any other pairing — in particular
`None` against anything — raises `TypeError`. -/
def pyNumVal : Json → Option Int
  | .num n => some n
  | .bool b => some (if b then 1 else 0)
  | _ => none

/-- Python `a < b` on decoded JSON scalar values. -/
def pyLtJson (a b : Json) : Except Unit Bool :=
  match pyNumVal a, pyNumVal b with
  | some x, some y => .ok (decide (x < y))
  | _, _ =>
    match a, b with
    | .str x, .str y => .ok (strLt x y)
    | _, _ => .error ()

/-- The sort key of the final sorted call of main, which reads the `ref`
key of the record dict with an empty-string default; the default never
fires because the record literal always contains the key. -/
def storeSortKey (r : StoreRecord) : Json :=
  (Json.obj r.toDict).pyGetD "ref" (.str "")

/-- Insertion step of the final sort, with the raising Python comparison on
the sort keys: `x` is placed in front of the first `y` whose key is not
less than the key of `x`; a `TypeError` from any comparison aborts
(`sorted` propagates it). -/
def insertStore (x : StoreRecord) : List StoreRecord → Except Unit (List StoreRecord)
  | [] => .ok [x]
  | y :: ys => do
      let b ← pyLtJson (storeSortKey y) (storeSortKey x)
      if b then do
        let rest ← insertStore x ys
        .ok (y :: rest)
      else .ok (x :: y :: ys)

/-- The final `sorted(all_stores, key=...)` of `main`, as a stable
insertion sort with the raising Python key comparison. -/
def sortStores : List StoreRecord → Except Unit (List StoreRecord)
  | [] => .ok []
  | x :: xs => do
      let s ← sortStores xs
      insertStore x s

/-- Outcome of locating and decoding the JSON-LD block of one fetched
page: the opening or closing marker may be absent (the explicit
`return None` lines), `json.loads` may raise `JSONDecodeError`, or a
decoded value is produced.  Marker search and JSON text decoding
themselves are pure string processing abstracted into this type. -/
inductive Block where
  | absent : Block
  | decodeErr : Block
  | decoded (j : Json) : Block

/-- What one HTTP attempt for a URL yields: a body (summarized by its
block outcome), an `HTTPError` with a status code, or a transport-level
`URLError`. -/
inductive Resp where
  | ok (b : Block) : Resp
  | httpErr (code : Nat) : Resp
  | netErr : Resp

/-- What the parsing section of `get_store_details` returns for a fetched
body, after the exception handlers of the loop: absent markers return
`None`; a decode error is caught by the `JSONDecodeError` handler and
returns `None`; a raise inside the building logic is caught by the
catch-all handler and returns `None`; otherwise the built optional record
is returned.  All of these leave the retry loop. -/
def parseBody : Block → Option StoreRecord
  | .absent => none
  | .decodeErr => none
  | .decoded j =>
    match buildFromJson j with
    | .error _ => none
    | .ok r => r

def MAX_RETRIES : Nat := 5

def INITIAL_DELAY : ℚ := 2

/-- The retry loop of `get_store_details`, driven by the per-attempt server
behaviour `resp` and the per-attempt jitter draw `jit`; returns the
result of the function together with the list of back-off delays slept, in
order.  `attempt` is the 0-based loop variable; `fuel` is the number of
iterations `range(MAX_RETRIES)` still has (the fuel-0 fall-through is the
final `return None` after the loop). -/
def fetchGo (resp : Nat → Resp) (jit : Nat → ℚ) : Nat → Nat → Option StoreRecord × List ℚ
  | _, 0 => (none, [])
  | attempt, fuel + 1 =>
    match resp attempt with
    | .ok b => (parseBody b, [])
    | .netErr => (none, [])
    | .httpErr code =>
      if code = 429 ∧ attempt < MAX_RETRIES - 1 then
        let d := INITIAL_DELAY * 2 ^ attempt + jit attempt
        let rest := fetchGo resp jit (attempt + 1) fuel
        (rest.1, d :: rest.2)
      else (none, [])

/-- `get_store_details` for one URL: run the retry loop from attempt 0. -/
def get_store_details (resp : Nat → Resp) (jit : Nat → ℚ) : Option StoreRecord × List ℚ :=
  fetchGo resp jit 0 MAX_RETRIES

/-- How one submitted task ends at the `future.result()` boundary of
`main`: either `get_store_details` completed with its optional record, or
the task raised and the exception surfaces from `future.result()`. -/
inductive TaskOutcome where
  | completed (r : Option StoreRecord) : TaskOutcome
  | raised : TaskOutcome

/-- The `as_completed` collection loop of `main`, over the completions in
whatever order they arrive (each completion carries its 1-based sitemap
ordinal and URL): a completed task with a record appends the record, with
its opening hours sorted, to `all_stores`; a completed task without a
record, or a task whose `future.result()` raised, appends `(ordinal, url)`
to `errors`. -/
def collectStep (acc : List StoreRecord × List (Nat × String))
    (c : (Nat × String) × TaskOutcome) : List StoreRecord × List (Nat × String) :=
  match c.2 with
  | .completed (some r) => (acc.1 ++ [sort_opening_hours r], acc.2)
  | .completed none => (acc.1, acc.2 ++ [c.1])
  | .raised => (acc.1, acc.2 ++ [c.1])

def collectOutcomes (completions : List ((Nat × String) × TaskOutcome)) :
    List StoreRecord × List (Nat × String) :=
  completions.foldl collectStep ([], [])

mutual
/-- An XML element as `xml.etree.ElementTree` presents it: a tag, the
optional text directly inside the opening tag (`None` for an empty
element), and the child elements in document order.  The children are a
mutually inductive list so that recursion over the tree stays structural.
Namespace resolution is abstracted: the tag of a location element is
modelled as the resolved name `loc`. -/
inductive Xml where
  | elem (tag : String) (text : Option String) (children : XmlList) : Xml
/-- Children of an XML element, in document order. -/
inductive XmlList where
  | nil : XmlList
  | cons (head : Xml) (tail : XmlList) : XmlList
end

def Xml.tag : Xml → String
  | .elem t _ _ => t

def Xml.text : Xml → Option String
  | .elem _ x _ => x

def Xml.children : Xml → XmlList
  | .elem _ _ c => c

/-- Builds the child list of an element from an ordinary list. -/
def xmlList : List Xml → XmlList
  | [] => .nil
  | e :: t => .cons e (xmlList t)

/-- All descendants of the elements of a list, each preceded by the element
itself, in document (preorder) order: the node set `.//` denotes. -/
def descList : XmlList → List Xml
  | .nil => []
  | .cons (.elem t x c) rest => .elem t x c :: (descList c ++ descList rest)

/-- The findall of the namespaced descendant location path: every proper descendant of the
root whose resolved tag is `loc`, in document order. -/
def findallLoc (root : Xml) : List Xml :=
  (descList root.children).filter fun e => e.tag = "loc"

/-- The substring filter of the sitemap list comprehension. -/
def STORE_MARKER : String := "ampol.com.au/en/"

/-- One step of the list comprehension of `extract_urls_from_sitemap`: the
text of each element is tested for the marker; an element with no text makes the
`in` test raise `TypeError` (Python `in` on `None`). -/
def urlStep (acc : List String) (e : Xml) : Except Unit (List String) :=
  match e.text with
  | none => .error ()
  | some t => .ok (if pyInStr STORE_MARKER t then acc ++ [t] else acc)

/-- The list comprehension of `extract_urls_from_sitemap`; a raise anywhere
abandons the whole comprehension. -/
def urlsFromLocs (locs : List Xml) : Except Unit (List String) :=
  locs.foldlM urlStep []

/-- `extract_urls_from_sitemap`: `none` stands for a document `ET.parse`
rejects; any exception — the `ParseError`, or the `TypeError` from a
text-less location element — is caught by the same handler and yields the
empty list. -/
def extract_urls_from_sitemap : Option Xml → List String
  | none => []
  | some root =>
    match urlsFromLocs (findallLoc root) with
    | .error _ => []
    | .ok urls => urls

/-- The loop condition selecting the business item. -/
def isBizItem (item : Json) : Bool :=
  item.isObj && (item.pyGet "@type").eqStr "LocalBusiness"

/-- The contribution of one item to the services accumulator: the stored
`serviceType` value when the item is a dict marked `Service` that has the
key, nothing otherwise. -/
def svcVal (item : Json) : Option Json :=
  if item.isObj && (item.pyGet "@type").eqStr "Service" && item.hasKey "serviceType" then
    some (item.pyGet "serviceType")
  else none

/-- Completions that end in the failure bucket of `main`: a task that
completed without a record, or a task whose result call raised. -/
def isFailureOutcome : TaskOutcome → Bool
  | .completed (some _) => false
  | .completed none => true
  | .raised => true

/-- The records a completion list contributes, in collection order. -/
def collectedStores (l : List ((Nat × String) × TaskOutcome)) : List StoreRecord :=
  l.filterMap fun c =>
    match c.2 with
    | .completed (some r) => some (sort_opening_hours r)
    | _ => none

/-- The `(ordinal, url)` failure entries a completion list contributes. -/
def collectedErrors (l : List ((Nat × String) × TaskOutcome)) : List (Nat × String) :=
  (l.filter fun c => isFailureOutcome c.2).map fun c => c.1

/-- The contribution of one location element to the URL list: its text when
present and containing the marker. -/
def locTextVal (e : Xml) : Option String :=
  match e.text with
  | some t => if pyInStr STORE_MARKER t then some t else none
  | none => none

/-- Concrete fixtures used by the claim theorems and witnesses below. -/
def emptyRec : StoreRecord :=
  { ref := .null, name := .null, url := .null, phone := .null, address := .null,
    locality := .null, postcode := .null, country := .null, latitude := .null,
    longitude := .null, openingHours := [], services := [] }

def bizA : Json :=
  .obj [("@type", .str "LocalBusiness"), ("@id", .str "s1"), ("name", .str "A")]

def bizB : Json :=
  .obj [("@type", .str "LocalBusiness"), ("@id", .str "s2"), ("name", .str "B")]

def recA : StoreRecord :=
  { emptyRec with ref := .str "s1", name := .str "A" }

def recB : StoreRecord :=
  { emptyRec with ref := .str "s2", name := .str "B" }

def svcItem (s : String) : Json :=
  .obj [("@type", .str "Service"), ("serviceType", .str s)]

/-- A business item with no `@id` key: its record gets `ref = None`. -/
def bizNoRef : Json :=
  .obj [("@type", .str "LocalBusiness"), ("name", .str "NoRef")]

def recNoRef : StoreRecord :=
  { emptyRec with name := .str "NoRef" }

/-- A business item whose latitude is present and truthy but not
numerically convertible. -/
def bizBadLat : Json :=
  .obj [("@type", .str "LocalBusiness"), ("geo", .obj [("latitude", .str "abc")])]

def hoursEntry (d : String) : HoursEntry :=
  ⟨d, .null, .null⟩

/-- A record whose hours arrive in the order Wednesday, Monday, Sunday. -/
def recWMS : StoreRecord :=
  { emptyRec with openingHours :=
      [hoursEntry "Wednesday", hoursEntry "Monday", hoursEntry "Sunday"] }

/-- A record with an unrecognized day name before Sunday. -/
def recBogus : StoreRecord :=
  { emptyRec with openingHours := [hoursEntry "bogus", hoursEntry "Sunday"] }

def locElem (t : String) : Xml :=
  .elem "loc" (some t) .nil

/-- A location element with no text, as `ET` yields for an empty element. -/
def locEmpty : Xml :=
  .elem "loc" none .nil

def urlStore1 : String := "https://locations.ampol.com.au/en/nsw/sydney"

def urlStore2 : String := "https://locations.ampol.com.au/en/vic/melbourne"

def urlOther : String := "https://locations.ampol.com.au/fr/info"

def sitemapUrlEntry (child : Xml) : Xml :=
  .elem "url" none (.cons child .nil)

/-- A sitemap whose second location element has no text. -/
def sitemapWithEmptyLoc : Xml :=
  .elem "urlset" none
    (xmlList [sitemapUrlEntry (locElem urlStore1), sitemapUrlEntry locEmpty])

/-- A business item whose `address` value has the wrong shape (a string
instead of a mapping). -/
def bizWrongAddr : Json :=
  .obj [("@type", .str "LocalBusiness"), ("address", .str "not a dict")]

/-- A server that answers HTTP 429 on every attempt. -/
def respAll429 : Nat → Resp := fun _ => .httpErr 429

/-- A jitter draw of zero on every attempt. -/
def jitZero : Nat → ℚ := fun _ => 0

def taskOk : (Nat × String) × TaskOutcome :=
  ((1, "u1"), .completed (some recA))

def taskRaised : (Nat × String) × TaskOutcome :=
  ((2, "u2"), .raised)

/-- A sitemap whose location elements all carry text; the second one does
not contain the store marker. -/
def sitemapGood : Xml :=
  .elem "urlset" none
    (xmlList [sitemapUrlEntry (locElem urlStore1), sitemapUrlEntry (locElem urlOther)])

/-!
Lemma layer: properties of the sorting, scanning and folding helpers, used
by the claim theorems below.
-/

theorem insertLe_perm (le : α → α → Bool) (x : α) (l : List α) :
    (insertLe le x l).Perm (x :: l) := by
  induction l with
  | nil => exact List.Perm.refl _
  | cons y ys ih =>
    simp only [insertLe]
    by_cases h : le x y
    · simp [h]
    · simp only [h, if_neg]
      exact (ih.cons y).trans (List.Perm.swap x y ys)

theorem isortBy_perm (le : α → α → Bool) (l : List α) :
    (isortBy le l).Perm l := by
  induction l with
  | nil => exact List.Perm.refl _
  | cons x xs ih => exact (insertLe_perm le x _).trans (ih.cons x)

theorem pairwise_insertLe (le : α → α → Bool)
    (htot : ∀ a b, le a b = true ∨ le b a = true)
    (htrans : ∀ a b c, le a b = true → le b c = true → le a c = true)
    (x : α) : ∀ l : List α, l.Pairwise (fun a b => le a b = true) →
    (insertLe le x l).Pairwise (fun a b => le a b = true) := by
  intro l
  induction l with
  | nil => intro _; simp [insertLe]
  | cons y ys ih =>
    intro h
    rcases List.pairwise_cons.mp h with ⟨hy, hys⟩
    simp only [insertLe]
    by_cases hxy : le x y
    · simp only [hxy, if_pos]
      refine List.pairwise_cons.mpr ⟨?_, h⟩
      intro z hz
      rcases List.mem_cons.mp hz with rfl | hz
      · exact hxy
      · exact htrans x y z hxy (hy z hz)
    · simp only [hxy, if_neg, Bool.false_eq_true, not_false_iff]
      refine List.pairwise_cons.mpr ⟨?_, ih hys⟩
      intro z hz
      rcases List.mem_cons.mp ((insertLe_perm le x ys).mem_iff.mp hz) with rfl | hz
      · rcases htot z y with h1 | h1
        · exact absurd h1 (by simpa using hxy)
        · exact h1
      · exact hy z hz

theorem pairwise_isortBy (le : α → α → Bool)
    (htot : ∀ a b, le a b = true ∨ le b a = true)
    (htrans : ∀ a b c, le a b = true → le b c = true → le a c = true)
    (l : List α) : (isortBy le l).Pairwise (fun a b => le a b = true) := by
  induction l with
  | nil => simp [isortBy]
  | cons x xs ih => exact pairwise_insertLe le htot htrans x _ ih

theorem filter_insertLe (f : α → Nat) (le : α → α → Bool)
    (hle : ∀ a b, le a b = true ↔ f a ≤ f b) (x : α) (n : Nat) :
    ∀ l : List α, (insertLe le x l).filter (fun a => f a == n) =
      if f x = n then x :: l.filter (fun a => f a == n)
      else l.filter (fun a => f a == n) := by
  intro l
  induction l with
  | nil =>
    by_cases h : f x = n <;> simp [insertLe, List.filter_cons, h, beq_iff_eq]
  | cons y ys ih =>
    simp only [insertLe]
    by_cases hxy : le x y
    · simp only [hxy, if_pos]
      by_cases hx : f x = n <;> simp [List.filter_cons, hx]
    · simp only [hxy, if_neg, Bool.false_eq_true, not_false_iff]
      have hyx : f y < f x := by
        have h2 : ¬ f x ≤ f y := fun hc => hxy ((hle x y).mpr hc)
        omega
      by_cases hx : f x = n
      · have hy : (f y == n) = false := by
          simp only [beq_eq_false_iff_ne, ne_eq]
          omega
        simp [List.filter_cons, hy, ih, hx]
      · by_cases hy : f y = n <;> simp [List.filter_cons, hy, ih, hx]

theorem filter_isortBy (f : α → Nat) (le : α → α → Bool)
    (hle : ∀ a b, le a b = true ↔ f a ≤ f b) (n : Nat) :
    ∀ l : List α, (isortBy le l).filter (fun a => f a == n) =
      l.filter (fun a => f a == n) := by
  intro l
  induction l with
  | nil => rfl
  | cons x xs ih =>
    simp only [isortBy]
    rw [filter_insertLe f le hle x n (isortBy le xs)]
    by_cases hx : f x = n <;> simp [List.filter_cons, hx, ih]

theorem charListLt_asymm : ∀ a b : List Char,
    charListLt a b = true → charListLt b a = false
  | [], [] => by simp [charListLt]
  | [], _ :: _ => by simp [charListLt]
  | _ :: _, [] => by simp [charListLt]
  | a :: as, b :: bs => by
    simp only [charListLt]
    by_cases h1 : a.toNat < b.toNat
    · intro _
      have h2 : ¬ b.toNat < a.toNat := by omega
      simp [h1, h2]
    · by_cases h2 : b.toNat < a.toNat
      · simp [h1, h2]
      · simp only [h1, h2, if_neg, not_false_iff, if_false]
        exact charListLt_asymm as bs

theorem charListLt_le_trans : ∀ a b c : List Char,
    charListLt b a = false → charListLt c b = false → charListLt c a = false
  | a, [], [] => by simp [charListLt]
  | a, [], _ :: _ => by
    intro h1 h2
    cases a with
    | nil => simp [charListLt]
    | cons x xs => simp [charListLt] at h1
  | [], _ :: _, c => by
    intro _ _
    cases c <;> simp [charListLt]
  | aa :: as, bb :: bs, [] => by simp [charListLt]
  | aa :: as, bb :: bs, cc :: cs => by
    intro h1 h2
    simp only [charListLt] at h1 h2 ⊢
    by_cases hba : bb.toNat < aa.toNat
    · simp [hba] at h1
    · by_cases hcb : cc.toNat < bb.toNat
      · simp [hcb] at h2
      · by_cases hca : cc.toNat < aa.toNat
        · omega
        · by_cases hac : aa.toNat < cc.toNat
          · simp [hca, hac]
          · simp only [hca, hac, if_neg, not_false_iff, if_false]
            have hab : ¬ aa.toNat < bb.toNat := by omega
            have hbc : ¬ bb.toNat < cc.toNat := by omega
            simp only [hab, hba, if_neg, not_false_iff, if_false] at h1
            simp only [hbc, hcb, if_neg, not_false_iff, if_false] at h2
            exact charListLt_le_trans as bs cs h1 h2

/-- The boolean comparison the services sort uses (`x` may precede `y` when
the key of `y` is not smaller): total. -/
theorem strGe_total (a b : String) : (!strLt b a) = true ∨ (!strLt a b) = true := by
  by_cases h : strLt b a
  · right
    rw [Bool.not_eq_true']
    exact charListLt_asymm b.toList a.toList h
  · left
    simp [h]

/-- The services comparison is transitive. -/
theorem strGe_trans (a b c : String) (h1 : (!strLt b a) = true)
    (h2 : (!strLt c b) = true) : (!strLt c a) = true := by
  simp only [Bool.not_eq_true', strLt] at h1 h2 ⊢
  exact charListLt_le_trans a.toList b.toList c.toList h1 h2

theorem asStrings_mem : ∀ (l : List Json) (ss : List String),
    asStrings l = some ss → ∀ s : String, (Json.str s ∈ l ↔ s ∈ ss) := by
  intro l
  induction l with
  | nil =>
    intro ss h s
    simp only [asStrings, Option.some.injEq] at h
    subst h
    simp
  | cons j t ih =>
    intro ss h s
    cases j with
    | str u =>
      simp only [asStrings, Option.map_eq_some'] at h
      rcases h with ⟨ts, hts, rfl⟩
      simp [List.mem_cons, ih ts hts s]
    | null => simp [asStrings] at h
    | bool b => simp [asStrings] at h
    | num n => simp [asStrings] at h
    | arr l2 => simp [asStrings] at h
    | obj l2 => simp [asStrings] at h

/-- What `pySortedSet` returns when it succeeds: a lexicographically
sorted, duplicate-free list with exactly the string members of the input. -/
theorem pySortedSet_spec (l : List Json) (ss : List String)
    (h : pySortedSet l = .ok ss) :
    ss.Pairwise (fun a b => strLt b a = false) ∧ ss.Nodup ∧
      ∀ s : String, (s ∈ ss ↔ Json.str s ∈ l) := by
  unfold pySortedSet at h
  cases hs : asStrings l with
  | none => rw [hs] at h; exact absurd h (by simp)
  | some strs =>
    rw [hs] at h
    simp only [Except.ok.injEq] at h
    subst h
    refine ⟨?_, ?_, ?_⟩
    · have hp := pairwise_isortBy (fun a b => !strLt b a)
        (fun a b => strGe_total a b) (fun a b c => strGe_trans a b c)
        strs.dedup
      exact hp.imp fun hab => by simpa using hab
    · exact ((isortBy_perm _ strs.dedup).nodup_iff).mpr strs.nodup_dedup
    · intro s
      rw [(isortBy_perm _ strs.dedup).mem_iff, List.mem_dedup]
      exact (asStrings_mem l strs hs s).symm

theorem eqStr_exclusive (j : Json) (s t : String) (hst : s ≠ t)
    (h : j.eqStr s = true) : j.eqStr t = false := by
  cases j <;> simp only [Json.eqStr, decide_eq_true_eq] at h ⊢
  case str u =>
    simp only [decide_eq_false_iff_not]
    intro hut
    exact hst (h ▸ hut ▸ rfl)

theorem scanStep_fst (acc : Option Json × List Json) (item : Json) :
    (scanStep acc item).1 = if isBizItem item then some item else acc.1 := by
  simp only [scanStep, isBizItem]
  by_cases h1 : item.isObj
  · simp only [h1, if_pos, Bool.true_and]
    by_cases h2 : (item.pyGet "@type").eqStr "LocalBusiness"
    · simp [h2]
    · simp only [h2, Bool.false_eq_true, if_neg, not_false_iff]
      by_cases h3 : (item.pyGet "@type").eqStr "Service" && item.hasKey "serviceType" <;>
        simp [h3]
  · simp [h1]

theorem scanStep_snd (acc : Option Json × List Json) (item : Json) :
    (scanStep acc item).2 = acc.2 ++ (svcVal item).toList := by
  simp only [scanStep, svcVal]
  by_cases h1 : item.isObj
  · simp only [h1, if_pos, Bool.true_and]
    by_cases h2 : (item.pyGet "@type").eqStr "LocalBusiness"
    · have h3 : (item.pyGet "@type").eqStr "Service" = false :=
        eqStr_exclusive _ "LocalBusiness" "Service" (by decide) h2
      simp [h2, h3]
    · simp only [h2, Bool.false_eq_true, if_neg, not_false_iff]
      by_cases h3 : (item.pyGet "@type").eqStr "Service" && item.hasKey "serviceType" <;>
        simp [h3]
  · simp [h1]

theorem foldl_scanStep_fst : ∀ (l : List Json) (acc : Option Json × List Json),
    (l.foldl scanStep acc).1 =
      match l.reverse.find? isBizItem with
      | some b => some b
      | none => acc.1 := by
  intro l
  induction l with
  | nil => intro acc; rfl
  | cons h t ih =>
    intro acc
    simp only [List.foldl_cons, List.reverse_cons, List.find?_append]
    rw [ih (scanStep acc h)]
    cases hf : t.reverse.find? isBizItem with
    | some b => simp [Option.orElse]
    | none =>
      simp only [Option.orElse, List.find?]
      by_cases hb : isBizItem h
      · simp [List.find?, hb, scanStep_fst]
      · simp [List.find?, hb, scanStep_fst]

theorem foldl_scanStep_snd : ∀ (l : List Json) (acc : Option Json × List Json),
    (l.foldl scanStep acc).2 = acc.2 ++ l.filterMap svcVal := by
  intro l
  induction l with
  | nil => intro acc; simp
  | cons h t ih =>
    intro acc
    simp only [List.foldl_cons, List.filterMap_cons]
    rw [ih (scanStep acc h), scanStep_snd]
    cases hv : svcVal h <;> simp [hv]

theorem scanItems_eq (items : List Json) :
    scanItems items = (items.reverse.find? isBizItem, items.filterMap svcVal) := by
  unfold scanItems
  refine Prod.ext ?_ ?_
  · rw [foldl_scanStep_fst]
    cases items.reverse.find? isBizItem <;> rfl
  · rw [foldl_scanStep_snd]
    simp

theorem buildFromItems_eq (items : List Json) :
    buildFromItems items =
      match items.reverse.find? isBizItem with
      | none => .ok none
      | some si => (buildRecord si (items.filterMap svcVal)).map some := by
  unfold buildFromItems
  rw [scanItems_eq]
  cases items.reverse.find? isBizItem <;> rfl

theorem foldl_collectStep : ∀ (l : List ((Nat × String) × TaskOutcome))
    (acc : List StoreRecord × List (Nat × String)),
    l.foldl collectStep acc = (acc.1 ++ collectedStores l, acc.2 ++ collectedErrors l) := by
  intro l
  induction l with
  | nil => intro acc; simp [collectedStores, collectedErrors]
  | cons c t ih =>
    intro acc
    simp only [List.foldl_cons]
    rw [ih]
    rcases c with ⟨iu, o⟩
    cases o with
    | completed r =>
      cases r with
      | some rec =>
        simp [collectStep, collectedStores, collectedErrors, isFailureOutcome,
          List.filterMap_cons, List.filter_cons]
      | none =>
        simp [collectStep, collectedStores, collectedErrors, isFailureOutcome,
          List.filterMap_cons, List.filter_cons]
    | raised =>
      simp [collectStep, collectedStores, collectedErrors, isFailureOutcome,
        List.filterMap_cons, List.filter_cons]

theorem collectOutcomes_eq (l : List ((Nat × String) × TaskOutcome)) :
    collectOutcomes l = (collectedStores l, collectedErrors l) := by
  unfold collectOutcomes
  rw [foldl_collectStep]
  simp

theorem collected_length : ∀ l : List ((Nat × String) × TaskOutcome),
    (collectedStores l).length + (collectedErrors l).length = l.length := by
  intro l
  induction l with
  | nil => rfl
  | cons c t ih =>
    rcases c with ⟨iu, o⟩
    cases o with
    | completed r =>
      cases r with
      | some rec =>
        simp only [collectedStores, collectedErrors, List.filterMap_cons,
          List.filter_cons, isFailureOutcome, Bool.false_eq_true, if_false,
          List.length_cons, List.length_map] at ih ⊢
        omega
      | none =>
        simp only [collectedStores, collectedErrors, List.filterMap_cons,
          List.filter_cons, isFailureOutcome, if_true, List.length_cons,
          List.length_map] at ih ⊢
        omega
    | raised =>
      simp only [collectedStores, collectedErrors, List.filterMap_cons,
        List.filter_cons, isFailureOutcome, if_true, List.length_cons,
        List.length_map] at ih ⊢
      omega

theorem foldlM_urlStep_ok : ∀ (locs : List Xml) (acc : List String),
    (∀ e ∈ locs, (e.text).isSome = true) →
    locs.foldlM urlStep acc = .ok (acc ++ locs.filterMap locTextVal) := by
  intro locs
  induction locs with
  | nil => intro acc _; simp; rfl
  | cons e t ih =>
    intro acc h
    have he := h e (by simp)
    cases hx : e.text with
    | none => rw [hx] at he; simp at he
    | some s =>
      simp only [List.foldlM_cons, urlStep, hx]
      rw [show ((Except.ok (if pyInStr STORE_MARKER s then acc ++ [s] else acc) :
          Except Unit (List String)) >>= fun b => t.foldlM urlStep b) =
          t.foldlM urlStep (if pyInStr STORE_MARKER s then acc ++ [s] else acc) from rfl]
      rw [ih _ fun e' he' => h e' (by simp [he'])]
      simp only [List.filterMap_cons, locTextVal, hx]
      by_cases hm : pyInStr STORE_MARKER s <;> simp [hm]

theorem foldlM_urlStep_err : ∀ (locs : List Xml) (acc : List String),
    (∃ e ∈ locs, e.text = none) →
    locs.foldlM urlStep acc = .error () := by
  intro locs
  induction locs with
  | nil => intro acc h; simp at h
  | cons e t ih =>
    intro acc h
    cases hx : e.text with
    | none =>
      simp only [List.foldlM_cons, urlStep, hx]
      rfl
    | some s =>
      rcases h with ⟨e', he', hnone⟩
      rcases List.mem_cons.mp he' with rfl | he'
      · rw [hx] at hnone; cases hnone
      · simp only [List.foldlM_cons, urlStep, hx]
        rw [show ((Except.ok (if pyInStr STORE_MARKER s then acc ++ [s] else acc) :
            Except Unit (List String)) >>= fun b => t.foldlM urlStep b) =
            t.foldlM urlStep (if pyInStr STORE_MARKER s then acc ++ [s] else acc) from rfl]
        exact ih _ ⟨e', he', hnone⟩

theorem fetchGo_spec (resp : Nat → Resp) (jit : Nat → ℚ) :
    ∀ (fuel a : Nat), fuel + a = MAX_RETRIES → a ≤ MAX_RETRIES - 1 →
      ∃ k, (fetchGo resp jit a fuel).2 =
          (List.range' a k).map (fun i => INITIAL_DELAY * 2 ^ i + jit i)
        ∧ a + k ≤ MAX_RETRIES - 1
        ∧ (∀ i, a ≤ i → i < a + k → resp i = .httpErr 429)
        ∧ (fetchGo resp jit a fuel).1 =
            (match resp (a + k) with
             | .ok b => parseBody b
             | .netErr => none
             | .httpErr _ => none)
        ∧ (a + k < MAX_RETRIES - 1 → ∀ c, resp (a + k) = .httpErr c → c ≠ 429) := by
  intro fuel
  induction fuel with
  | zero =>
    intro a hfa ha
    exfalso
    simp [MAX_RETRIES] at hfa ha
    omega
  | succ f ih =>
    intro a hfa ha
    cases hr : resp a with
    | ok b =>
      refine ⟨0, by simp [fetchGo, hr], by simpa using ha,
        (fun i h1 h2 => absurd h2 (by omega)), by simp [fetchGo, hr], ?_⟩
      intro _ c hcc
      rw [Nat.add_zero, hr] at hcc
      cases hcc
    | netErr =>
      refine ⟨0, by simp [fetchGo, hr], by simpa using ha,
        (fun i h1 h2 => absurd h2 (by omega)), by simp [fetchGo, hr], ?_⟩
      intro _ c hcc
      rw [Nat.add_zero, hr] at hcc
      cases hcc
    | httpErr code =>
      by_cases hc : code = 429 ∧ a < MAX_RETRIES - 1
      · have hfa2 : f + (a + 1) = MAX_RETRIES := by omega
        have ha2 : a + 1 ≤ MAX_RETRIES - 1 := hc.2
        obtain ⟨k', h1, h2, h3, h4, h5⟩ := ih (a + 1) hfa2 ha2
        have heq : a + (k' + 1) = a + 1 + k' := by omega
        refine ⟨k' + 1, ?_, by omega, ?_, ?_, ?_⟩
        · simp only [fetchGo, hr]
          rw [if_pos hc]
          simp only [List.range'_succ, List.map_cons]
          rw [h1]
        · intro i hi1 hi2
          rcases Nat.eq_or_lt_of_le hi1 with rfl | hlt
          · rw [hr, hc.1]
          · exact h3 i (by omega) (by omega)
        · rw [heq]
          simp only [fetchGo, hr]
          rw [if_pos hc]
          exact h4
        · intro hlt c hcc
          rw [heq] at hlt hcc
          exact h5 hlt c hcc
      · refine ⟨0, by simp [fetchGo, hr, hc], by simpa using ha,
          (fun i h1 h2 => absurd h2 (by omega)), by simp [fetchGo, hr, hc], ?_⟩
        intro hlt c hcc
        rw [Nat.add_zero, hr] at hcc
        injection hcc with hcode
        intro h429
        exact hc ⟨by rw [hcode, h429], by simpa using hlt⟩

/-!
Claim theorems.
-/

/-- C1: the claim states that the final output sort succeeds even when some
records have an absent reference id, the absent id sorting as the empty
string.  On the code this fails: the record dict always contains the `ref`
key (with value `None` when the page had no `@id`), so the empty-string
default of the ref lookup in the sort key never fires, and `sorted` compares `None`
against a string, raising `TypeError`.  Evaluated here: two successfully
built records, one from a page without `@id`; the final sort raises
instead of sorting the `None` record first. -/
theorem c1_absent_ref_sort_raises :
    buildFromItems [bizNoRef] = .ok (some recNoRef)
    ∧ buildFromItems [bizA] = .ok (some recA)
    ∧ storeSortKey recNoRef = Json.null
    ∧ sortStores [recNoRef, recA] = .error ()
    ∧ sortStores [recA, recNoRef] = .error () :=
  ⟨rfl, rfl, rfl, rfl, rfl⟩

/-- C2 counterexample: with two business-entity items in the normalized
sequence, the claim predicts the record is built from the first (name
`A`); the code builds it from the second (name `B`), because the scan
loop overwrites `store_info` on every match. -/
theorem c2_first_business_cex :
    buildFromItems [bizA, bizB] = .ok (some recB)
    ∧ recB.name = .str "B"
    ∧ Json.str "B" ≠ Json.str "A" := by
  refine ⟨rfl, rfl, ?_⟩
  intro h
  injection h with h2
  exact absurd h2 (by decide)

/-- C2 amended: the record builder uses the LAST business-entity item of
the normalized sequence as the source of all record-level fields; if the
sequence contains no business-entity item it returns null (no record, not
an error record). -/
theorem c2_last_business_selected (items : List Json) :
    buildFromItems items =
      match items.reverse.find? isBizItem with
      | none => Except.ok none
      | some si => (buildRecord si (items.filterMap svcVal)).map some :=
  buildFromItems_eq items

/-- C10 counterexample: the record dict literal has twelve keys, not
thirteen as the claim counts them. -/
theorem c10_twelve_fields_cex :
    buildFromItems [bizA] = .ok (some recA)
    ∧ (recA.toDict.map Prod.fst).length = 12
    ∧ (12 : Nat) ≠ 13 :=
  ⟨rfl, rfl, by decide⟩

/-- C10 amended: every successful store record contains exactly the twelve
output fields (ref, name, url, phone, address, locality, postcode,
country, latitude, longitude, openingHours, services) as present keys — a
field whose source datum is absent is emitted with a null value, never
omitted; `openingHours` is always a list whose entries have exactly the
keys dayOfWeek, opens, closes with dayOfWeek always a string; `services`
is always a list of strings. -/
theorem c10_record_shape (items : List Json) (r : StoreRecord)
    (_h : buildFromItems items = .ok (some r)) :
    r.toDict.map Prod.fst = ["ref", "name", "url", "phone", "address", "locality",
      "postcode", "country", "latitude", "longitude", "openingHours", "services"]
    ∧ (∀ k ∈ r.toDict.map Prod.fst, (pyDictFind r.toDict k).isSome = true)
    ∧ pyDictFind r.toDict "ref" = some r.ref
    ∧ pyDictFind r.toDict "openingHours" =
        some (.arr (r.openingHours.map fun e => .obj e.toDict))
    ∧ pyDictFind r.toDict "services" = some (.arr (r.services.map Json.str))
    ∧ (∀ e ∈ r.openingHours, e.toDict.map Prod.fst = ["dayOfWeek", "opens", "closes"]
        ∧ pyDictFind e.toDict "dayOfWeek" = some (.str e.dayOfWeek)) := by
  refine ⟨rfl, ?_, rfl, rfl, rfl, ?_⟩
  · intro k hk
    rw [show r.toDict.map Prod.fst = ["ref", "name", "url", "phone", "address",
      "locality", "postcode", "country", "latitude", "longitude", "openingHours",
      "services"] from rfl] at hk
    fin_cases hk <;> rfl
  · intro e _
    exact ⟨rfl, rfl⟩

/-- C10 amended, witness: a concrete record built from a page without an
`@id`: all twelve keys are present and the `ref` key is present with a
null value rather than omitted. -/
theorem c10_record_shape_witness :
    buildFromItems [bizNoRef] = .ok (some recNoRef)
    ∧ recNoRef.toDict.map Prod.fst = ["ref", "name", "url", "phone", "address",
      "locality", "postcode", "country", "latitude", "longitude", "openingHours",
      "services"]
    ∧ pyDictFind recNoRef.toDict "ref" = some Json.null := by
  have h := c10_record_shape [bizNoRef] recNoRef rfl
  exact ⟨rfl, h.1, h.2.2.1⟩

/-- C8: for every record, `sort_opening_hours` orders the opening-hours
entries Monday through Sunday by the day key (unrecognized day names get
key 7 and therefore sort after all recognized days), the output is a
permutation of the input, and entries with equal day keys — in particular
all unrecognized ones — keep their relative input order; concretely, the
input order Wednesday, Monday, Sunday comes out Monday, Wednesday, Sunday,
and a bogus day name sorts after Sunday. -/
theorem c8_opening_hours_sort :
    (∀ r : StoreRecord,
      (sort_opening_hours r).openingHours.Pairwise
        (fun a b => day_order a.dayOfWeek ≤ day_order b.dayOfWeek)
      ∧ (sort_opening_hours r).openingHours.Perm r.openingHours
      ∧ ∀ n, (sort_opening_hours r).openingHours.filter
            (fun e => day_order e.dayOfWeek == n)
          = r.openingHours.filter (fun e => day_order e.dayOfWeek == n))
    ∧ (sort_opening_hours recWMS).openingHours =
        [hoursEntry "Monday", hoursEntry "Wednesday", hoursEntry "Sunday"]
    ∧ (sort_opening_hours recBogus).openingHours =
        [hoursEntry "Sunday", hoursEntry "bogus"]
    ∧ day_order "bogus" = 7 ∧ day_order "Sunday" = 6 := by
  refine ⟨?_, rfl, rfl, rfl, rfl⟩
  intro r
  have htot : ∀ a b : HoursEntry, hoursLe a b = true ∨ hoursLe b a = true := by
    intro a b
    simp only [hoursLe, decide_eq_true_eq]
    omega
  have htrans : ∀ a b c : HoursEntry,
      hoursLe a b = true → hoursLe b c = true → hoursLe a c = true := by
    intro a b c
    simp only [hoursLe, decide_eq_true_eq]
    omega
  have hle : ∀ a b : HoursEntry,
      hoursLe a b = true ↔ day_order a.dayOfWeek ≤ day_order b.dayOfWeek := by
    intro a b
    simp [hoursLe]
  by_cases he : r.openingHours.isEmpty
  · have : r.openingHours = [] := List.isEmpty_iff.mp he
    simp [sort_opening_hours, he, this]
  · have hs : (sort_opening_hours r).openingHours = isortBy hoursLe r.openingHours := by
      simp [sort_opening_hours, he]
    rw [hs]
    refine ⟨?_, isortBy_perm hoursLe r.openingHours, ?_⟩
    · exact (pairwise_isortBy hoursLe htot htrans r.openingHours).imp
        fun hab => (hle _ _).mp hab
    · intro n
      exact filter_isortBy (fun e => day_order e.dayOfWeek) hoursLe hle n r.openingHours

/-- C3 counterexample: a business entity whose `geo.latitude` is present
and truthy but fails numeric conversion does not produce a record with an
absent latitude — the `float` raise escapes the builder, is caught only by
the fetch-loop handler, and the whole page becomes a failure. -/
theorem c3_latlon_failure_cex :
    buildFromItems [bizBadLat] = .error ()
    ∧ parseBody (.decoded bizBadLat) = none :=
  ⟨rfl, rfl⟩

/-- C3 amended: nested structures of the wrong shape do yield absent
fields rather than errors (address, country object, geo mapping,
opening-hours specification), but a latitude or longitude value that is
present and truthy and fails numeric conversion raises inside the record
assembly, so the whole page becomes a failure instead of a record with
that one field absent. -/
theorem c3_defensive_fields :
    (∀ si : Json, (addressInfo si).isObj = false →
      street si = .null ∧ locality si = .null ∧ postcode si = .null ∧ country si = .null)
    ∧ (∀ si : Json, (countryObj si).isObj = false → country si = .null)
    ∧ (∀ (si : Json) (k : String), (geoInfo si).isObj = false →
        extractCoord si k = .ok .null)
    ∧ (∀ (si : Json) (k : String), (geoInfo si).isObj = true →
        ((geoInfo si).pyGet k).truthy = false → extractCoord si k = .ok .null)
    ∧ (∀ si x : Json, si.pyGetD "openingHoursSpecification" (.arr []) = x →
        x.isArr = false → x.isObj = false → extractHours si = .ok [])
    ∧ (∀ (si : Json) (k : String), (geoInfo si).isObj = true →
        ((geoInfo si).pyGet k).truthy = true →
        pyFloat ((geoInfo si).pyGet k) = none → extractCoord si k = .error ())
    ∧ (∀ (si : Json) (svcs : List Json),
        extractCoord si "latitude" = .error () ∨ extractCoord si "longitude" = .error () →
        buildRecord si svcs = .error ()) := by
  refine ⟨?_, ?_, ?_, ?_, ?_, ?_, ?_⟩
  · intro si h
    have hc : countryObj si = .obj [] := by simp [countryObj, h]
    refine ⟨by simp [street, h], by simp [locality, h], by simp [postcode, h], ?_⟩
    unfold country
    rw [hc]
    rfl
  · intro si h
    simp [country, h]
  · intro si k h
    simp [extractCoord, h]
  · intro si k h1 h2
    simp [extractCoord, h1, h2]
  · intro si x hx ha ho
    unfold extractHours
    rw [hx]
    cases x with
    | arr l => simp [Json.isArr] at ha
    | null => rfl
    | bool b => rfl
    | num n => rfl
    | str s => rfl
    | obj l => simp [Json.isObj] at ho
  · intro si k h1 h2 h3
    simp [extractCoord, h1, h2, h3]
  · intro si svcs h
    rcases h with h | h
    · unfold buildRecord
      rw [h]
    · unfold buildRecord
      cases hl : extractCoord si "latitude" with
      | error e => rfl
      | ok v => rw [h]

/-- C3 amended, witness: a wrong-shape address yields null address fields
with the record still assembling, while the non-convertible latitude of
`bizBadLat` makes the whole build raise. -/
theorem c3_defensive_fields_witness :
    ((addressInfo bizWrongAddr).isObj = false ∧ street bizWrongAddr = .null)
    ∧ extractCoord bizBadLat "latitude" = .error ()
    ∧ buildRecord bizBadLat [] = .error () := by
  refine ⟨⟨rfl, (c3_defensive_fields.1 bizWrongAddr rfl).1⟩, ?_, ?_⟩
  · exact c3_defensive_fields.2.2.2.2.2.1 bizBadLat "latitude" rfl rfl rfl
  · exact c3_defensive_fields.2.2.2.2.2.2 bizBadLat []
      (Or.inl (c3_defensive_fields.2.2.2.2.2.1 bizBadLat "latitude" rfl rfl rfl))

/-- C4: the fetcher retries only on HTTP 429 and makes at most
`MAX_RETRIES` (5) total attempts; the i-th back-off delay (before attempt
i+2) is `INITIAL_DELAY * 2 ^ i + jitter`, with the jitter drawn from
[0, 1); every delay is preceded by a 429 answer; exhausting all retries on
repeated 429s yields a failure after exactly four delays; a first-attempt
non-429 HTTP error, transport error, or delivered body is terminal with no
delay slept; and in general the attempt right after the last delay — the
first occurrence of anything other than a retryable 429 — decides the
outcome: a delivered body yields whatever its parsing yields (including a
decode error, reported as a failure), while any HTTP error (a non-429, or
a 429 on the final attempt) and any transport error yields a failure,
whatever 429 retries preceded it. -/
theorem c4_retry_policy (resp : Nat → Resp) (jit : Nat → ℚ)
    (_hjit : ∀ n, 0 ≤ jit n ∧ jit n < 1) :
    (get_store_details resp jit).2.length ≤ MAX_RETRIES - 1
    ∧ (get_store_details resp jit).2 =
        (List.range (get_store_details resp jit).2.length).map
          (fun i => INITIAL_DELAY * 2 ^ i + jit i)
    ∧ (∀ i, i < (get_store_details resp jit).2.length → resp i = .httpErr 429)
    ∧ ((∀ i, i < MAX_RETRIES → resp i = .httpErr 429) →
        get_store_details resp jit =
          (none, [INITIAL_DELAY * 2 ^ 0 + jit 0, INITIAL_DELAY * 2 ^ 1 + jit 1,
                  INITIAL_DELAY * 2 ^ 2 + jit 2, INITIAL_DELAY * 2 ^ 3 + jit 3]))
    ∧ (∀ c, resp 0 = .httpErr c → c ≠ 429 → get_store_details resp jit = (none, []))
    ∧ (resp 0 = .netErr → get_store_details resp jit = (none, []))
    ∧ (∀ b, resp 0 = .ok b → get_store_details resp jit = (parseBody b, []))
    ∧ (∀ b, resp (get_store_details resp jit).2.length = .ok b →
        (get_store_details resp jit).1 = parseBody b)
    ∧ (resp (get_store_details resp jit).2.length = .netErr →
        (get_store_details resp jit).1 = none)
    ∧ (∀ c, resp (get_store_details resp jit).2.length = .httpErr c →
        (get_store_details resp jit).1 = none)
    ∧ ((get_store_details resp jit).2.length < MAX_RETRIES - 1 →
        ∀ c, resp (get_store_details resp jit).2.length = .httpErr c → c ≠ 429) := by
  obtain ⟨k, hd, hk, h429, hres, hstop⟩ :=
    fetchGo_spec resp jit MAX_RETRIES 0 (by simp) (Nat.zero_le _)
  have hdef : get_store_details resp jit = fetchGo resp jit 0 MAX_RETRIES := rfl
  have hlen : (get_store_details resp jit).2.length = k := by
    rw [hdef, hd]
    simp
  refine ⟨?_, ?_, ?_, ?_, ?_, ?_, ?_, ?_, ?_, ?_, ?_⟩
  · rw [hlen]
    simpa using hk
  · rw [hlen, hdef, hd, List.range_eq_range']
  · intro i hi
    rw [hlen] at hi
    exact h429 i (Nat.zero_le i) (by omega)
  · intro hall
    have h0 := hall 0 (by norm_num [MAX_RETRIES])
    have h1 := hall 1 (by norm_num [MAX_RETRIES])
    have h2 := hall 2 (by norm_num [MAX_RETRIES])
    have h3 := hall 3 (by norm_num [MAX_RETRIES])
    have h4 := hall 4 (by norm_num [MAX_RETRIES])
    rw [hdef]
    norm_num [fetchGo, MAX_RETRIES, h0, h1, h2, h3, h4]
  · intro c hc hne
    rw [hdef]
    norm_num [fetchGo, MAX_RETRIES, hc, hne]
  · intro hn
    rw [hdef]
    norm_num [fetchGo, MAX_RETRIES, hn]
  · intro b hb
    rw [hdef]
    norm_num [fetchGo, MAX_RETRIES, hb]
  · intro b hb
    rw [hlen] at hb
    rw [hdef, hres, Nat.zero_add, hb]
  · intro hb
    rw [hlen] at hb
    rw [hdef, hres, Nat.zero_add, hb]
  · intro c hb
    rw [hlen] at hb
    rw [hdef, hres, Nat.zero_add, hb]
  · intro hlt c hb
    rw [hlen] at hlt hb
    exact hstop (by simpa using hlt) c (by simpa using hb)

/-- C4 witness: a server answering 429 on every attempt, with zero jitter:
the fetch fails after the four delays 2, 4, 8, 16 seconds. -/
theorem c4_retry_policy_witness :
    (∀ n, (0:ℚ) ≤ jitZero n ∧ jitZero n < 1)
    ∧ get_store_details respAll429 jitZero = (none, [2, 4, 8, 16]) := by
  have hj : ∀ n, (0:ℚ) ≤ jitZero n ∧ jitZero n < 1 := by
    intro n
    exact ⟨le_refl 0, by norm_num [jitZero]⟩
  have h := (c4_retry_policy respAll429 jitZero hj).2.2.2.1 (fun i _ => rfl)
  refine ⟨hj, ?_⟩
  rw [h]
  norm_num [INITIAL_DELAY, jitZero]

/-- C5: normalization is shape-equivalent: a mapping containing the graph
key normalizes to the sequence stored under it, a sequence normalizes to
itself, and any other single value normalizes to a one-element sequence;
non-mapping items are silently skipped by the scan; hence a
graph-wrapper and the bare list it wraps produce the same flat item
sequence and identical record-builder output, and a single object is
equivalent to its one-element list and to the graph wrapper of that
one-element list. -/
theorem c5_normalization_shapes :
    (∀ (fields : List (String × Json)) (l : List Json),
        pyDictFind fields "@graph" = some (.arr l) →
        normalizeItems (.obj fields) = .ok l)
    ∧ (∀ l : List Json, normalizeItems (.arr l) = .ok l)
    ∧ (∀ j : Json, j.isArr = false → (j.isObj && j.hasKey "@graph") = false →
        normalizeItems j = .ok [j])
    ∧ (∀ (fields : List (String × Json)) (l : List Json),
        pyDictFind fields "@graph" = some (.arr l) →
        buildFromJson (.obj fields) = buildFromJson (.arr l))
    ∧ (∀ j : Json, j.isArr = false → (j.isObj && j.hasKey "@graph") = false →
        buildFromJson j = buildFromJson (.arr [j])
        ∧ buildFromJson j = buildFromJson (.obj [("@graph", .arr [j])]))
    ∧ (∀ (item : Json) (l1 l2 : List Json), item.isObj = false →
        buildFromItems (l1 ++ item :: l2) = buildFromItems (l1 ++ l2)) := by
  have ha : ∀ (fields : List (String × Json)) (l : List Json),
      pyDictFind fields "@graph" = some (.arr l) →
      normalizeItems (.obj fields) = .ok l := by
    intro fields l h
    have hcond : ((Json.obj fields).isObj && (Json.obj fields).hasKey "@graph") = true := by
      simp [Json.isObj, Json.hasKey, h]
    unfold normalizeItems
    rw [if_pos hcond]
    simp [Json.pyGet, Json.pyGetD, h, pyIter]
  have hb : ∀ l : List Json, normalizeItems (.arr l) = .ok l := by
    intro l
    simp [normalizeItems, Json.isObj]
  have hc : ∀ j : Json, j.isArr = false → (j.isObj && j.hasKey "@graph") = false →
      normalizeItems j = .ok [j] := by
    intro j h1 h2
    unfold normalizeItems
    rw [if_neg (by simp [h2])]
    cases j with
    | arr l => simp [Json.isArr] at h1
    | null => rfl
    | bool b => rfl
    | num n => rfl
    | str s => rfl
    | obj l => rfl
  refine ⟨ha, hb, hc, ?_, ?_, ?_⟩
  · intro fields l h
    unfold buildFromJson
    rw [ha fields l h, hb l]
  · intro j h1 h2
    constructor
    · unfold buildFromJson
      rw [hc j h1 h2, hb [j]]
    · unfold buildFromJson
      rw [hc j h1 h2, ha [("@graph", .arr [j])] [j] rfl]
  · intro item l1 l2 hobj
    have hbiz : isBizItem item = false := by simp [isBizItem, hobj]
    have hsv : svcVal item = none := by simp [svcVal, hobj]
    rw [buildFromItems_eq, buildFromItems_eq]
    have hfind : (l1 ++ item :: l2).reverse.find? isBizItem
        = (l1 ++ l2).reverse.find? isBizItem := by
      simp only [List.reverse_append, List.reverse_cons, List.find?_append]
      cases hf : l2.reverse.find? isBizItem <;>
        simp [Option.orElse, List.find?, hbiz, hf]
    have hmap : (l1 ++ item :: l2).filterMap svcVal = (l1 ++ l2).filterMap svcVal := by
      simp [List.filterMap_append, List.filterMap_cons, hsv]
    rw [hfind, hmap]

/-- C5 witness: the graph wrapper of a business and a service item, the
bare two-item list, and a single business object, evaluated concretely. -/
theorem c5_normalization_shapes_witness :
    normalizeItems (.obj [("@graph", .arr [bizA, svcItem "Fuel"])]) =
      .ok [bizA, svcItem "Fuel"]
    ∧ buildFromJson (.obj [("@graph", .arr [bizA, svcItem "Fuel"])]) =
        buildFromJson (.arr [bizA, svcItem "Fuel"])
    ∧ buildFromJson bizA = buildFromJson (.arr [bizA]) := by
  refine ⟨c5_normalization_shapes.1 _ [bizA, svcItem "Fuel"] rfl,
    c5_normalization_shapes.2.2.2.1 _ [bizA, svcItem "Fuel"] rfl,
    (c5_normalization_shapes.2.2.2.2.1 bizA rfl rfl).1⟩

/-- C6: for any list of per-URL tasks and any completion order (a
permutation of the tasks), every task ends in exactly one bucket: the
number of collected records plus the number of recorded failures equals
the number of tasks, the collection is exactly characterized (no task is
silently dropped), and a task whose result call raised is recorded as a
failure with its ordinal and URL rather than aborting the batch. -/
theorem c6_outcome_totality (tasks order : List ((Nat × String) × TaskOutcome))
    (h : order.Perm tasks) :
    (collectOutcomes order).1.length + (collectOutcomes order).2.length = tasks.length
    ∧ collectOutcomes order = (collectedStores order, collectedErrors order)
    ∧ (∀ iu : Nat × String, (iu, TaskOutcome.raised) ∈ order →
        iu ∈ (collectOutcomes order).2) := by
  refine ⟨?_, collectOutcomes_eq order, ?_⟩
  · rw [collectOutcomes_eq]
    have := collected_length order
    simpa [h.length_eq] using this
  · intro iu hm
    rw [collectOutcomes_eq]
    exact List.mem_map.mpr ⟨(iu, .raised), List.mem_filter.mpr ⟨hm, rfl⟩, rfl⟩

/-- C6 witness: two tasks completing in swapped order, one of which
raised: one record plus one failure, and the ordinal and URL of the raised task
appear among the failures. -/
theorem c6_outcome_totality_witness :
    (collectOutcomes [taskRaised, taskOk]).1.length
      + (collectOutcomes [taskRaised, taskOk]).2.length = 2
    ∧ (2, "u2") ∈ (collectOutcomes [taskRaised, taskOk]).2 := by
  have h := c6_outcome_totality [taskOk, taskRaised] [taskRaised, taskOk]
    (List.Perm.swap taskOk taskRaised [])
  exact ⟨h.1, h.2.2 (2, "u2") (List.mem_cons_self _ _)⟩

/-- C7 counterexample: a service entity whose service-type field is the
empty string does contribute an entry — the code checks only key presence,
so the services list of the record is the one-element list holding the empty
string, where the claim predicts it contributes nothing. -/
theorem c7_empty_service_type_cex :
    buildFromItems [bizA, svcItem ""] = .ok (some { recA with services := [""] })
    ∧ ({ recA with services := [""] } : StoreRecord).services ≠ [] := by
  refine ⟨rfl, ?_⟩
  simp

/-- C7 amended: for every built record the services field is a
lexicographically sorted, duplicate-free list containing exactly the
service-type string values of the items marked as service entities that
possess a serviceType key (an empty string value included). -/
theorem c7_services_sorted_unique (items : List Json) (r : StoreRecord)
    (h : buildFromItems items = .ok (some r)) :
    r.services.Pairwise (fun a b => strLt b a = false)
    ∧ r.services.Nodup
    ∧ (∀ s : String, s ∈ r.services ↔ Json.str s ∈ (scanItems items).2)
    ∧ (scanItems items).2 = items.filterMap svcVal := by
  have hsc2 : (scanItems items).2 = items.filterMap svcVal := by
    rw [scanItems_eq]
  unfold buildFromItems at h
  cases hsc : scanItems items with
  | mk b svcs =>
    rw [hsc] at h
    cases b with
    | none => simp at h
    | some si =>
      change Except.map some (buildRecord si svcs) = Except.ok (some r) at h
      cases hbr : buildRecord si svcs with
      | error e => rw [hbr] at h; simp [Except.map] at h
      | ok r' =>
        rw [hbr] at h
        simp only [Except.map, Except.ok.injEq, Option.some.injEq] at h
        subst h
        unfold buildRecord at hbr
        cases hlat : extractCoord si "latitude" with
        | error e => rw [hlat] at hbr; cases hbr
        | ok lat =>
          rw [hlat] at hbr
          cases hlon : extractCoord si "longitude" with
          | error e => rw [hlon] at hbr; cases hbr
          | ok lon =>
            rw [hlon] at hbr
            cases hh : extractHours si with
            | error e => rw [hh] at hbr; cases hbr
            | ok hours =>
              rw [hh] at hbr
              cases hps : pySortedSet svcs with
              | error e => rw [hps] at hbr; cases hbr
              | ok ss =>
                rw [hps] at hbr
                have hr : r'.services = ss := by
                  cases hbr
                  rfl
                obtain ⟨hp, hn, hm⟩ := pySortedSet_spec svcs ss hps
                refine ⟨hr ▸ hp, hr ▸ hn, ?_, by rw [← hsc, hsc2]⟩
                intro s
                rw [hr, hm s]

/-- C7 amended, witness: the services input Car Wash, Fuel, Car Wash
yields exactly the sorted duplicate-free list Car Wash, Fuel. -/
theorem c7_services_sorted_unique_witness :
    buildFromItems [bizA, svcItem "Car Wash", svcItem "Fuel", svcItem "Car Wash"] =
      .ok (some { recA with services := ["Car Wash", "Fuel"] })
    ∧ ({ recA with services := ["Car Wash", "Fuel"] } : StoreRecord).services.Nodup
    ∧ ("Fuel" ∈ ({ recA with services := ["Car Wash", "Fuel"] } : StoreRecord).services ↔
        Json.str "Fuel" ∈ (scanItems [bizA, svcItem "Car Wash", svcItem "Fuel",
          svcItem "Car Wash"]).2) := by
  have h := c7_services_sorted_unique
    [bizA, svcItem "Car Wash", svcItem "Fuel", svcItem "Car Wash"]
    { recA with services := ["Car Wash", "Fuel"] } rfl
  exact ⟨rfl, h.2.1, h.2.2.1 "Fuel"⟩

/-- C9 counterexample: a perfectly parseable sitemap containing one
marker-bearing location element and one location element with no text
yields the empty sequence — the `in` test on the `None` text raises
`TypeError`, which the same handler catches — so a parse failure is not
the only way to get the empty-on-failure result, and the marker-bearing
text is not returned as the claim predicts. -/
theorem c9_none_text_cex :
    extract_urls_from_sitemap (some sitemapWithEmptyLoc) = []
    ∧ (findallLoc sitemapWithEmptyLoc).map Xml.text = [some urlStore1, none]
    ∧ pyInStr STORE_MARKER urlStore1 = true
    ∧ extract_urls_from_sitemap (some sitemapWithEmptyLoc) ≠ [urlStore1] := by
  refine ⟨rfl, rfl, rfl, ?_⟩
  intro h
  rw [show extract_urls_from_sitemap (some sitemapWithEmptyLoc) = [] from rfl] at h
  cases h

/-- C9 amended: the extractor returns exactly the location texts that
contain the store-path marker, in document order, when the document parses
and every location element carries text; a parse failure yields the empty
sequence, and so does a parseable document containing a location element
with no text (via the caught `TypeError`). -/
theorem c9_extractor (doc : Option Xml) :
    (doc = none → extract_urls_from_sitemap doc = [])
    ∧ (∀ root, doc = some root → (∀ e ∈ findallLoc root, (e.text).isSome = true) →
        extract_urls_from_sitemap doc = (findallLoc root).filterMap locTextVal)
    ∧ (∀ root, doc = some root → (∃ e ∈ findallLoc root, e.text = none) →
        extract_urls_from_sitemap doc = []) := by
  refine ⟨?_, ?_, ?_⟩
  · intro h
    subst h
    rfl
  · intro root hd hall
    subst hd
    have h : urlsFromLocs (findallLoc root) =
        .ok ([] ++ (findallLoc root).filterMap locTextVal) := by
      unfold urlsFromLocs
      exact foldlM_urlStep_ok (findallLoc root) [] hall
    simp only [extract_urls_from_sitemap, h, List.nil_append]
  · intro root hd hex
    subst hd
    have h : urlsFromLocs (findallLoc root) = .error () := by
      unfold urlsFromLocs
      exact foldlM_urlStep_err (findallLoc root) [] hex
    simp only [extract_urls_from_sitemap, h]

/-- C9 amended, witness: a sitemap whose locations all carry text: exactly
the marker-bearing one is returned. -/
theorem c9_extractor_witness :
    extract_urls_from_sitemap (some sitemapGood) = [urlStore1] := by
  have hall : ∀ e ∈ findallLoc sitemapGood, (e.text).isSome = true := by
    intro e he
    rw [show findallLoc sitemapGood = [locElem urlStore1, locElem urlOther] from rfl] at he
    rcases List.mem_cons.mp he with rfl | he2
    · rfl
    · rcases List.mem_cons.mp he2 with rfl | he3
      · rfl
      · cases he3
  have h := (c9_extractor (some sitemapGood)).2.1 sitemapGood rfl hall
  rw [h]
  rfl
